import Mathlib

/-!
Shallow embedding of the WiFi-Direct session state machine of
src/src/w11tng/networkmanager.cpp (class w11tng::NetworkManager) and of the
per-device records it manipulates.

Modelling conventions, in source order:
  * Stub smart pointers (p2p_device_, mgmt_interface_, current_group_device_,
    current_group_iface_) are Option String holding the object path they were
    created from; none models a null shared_ptr.
  * NetworkDevice objects are shared (shared_ptr) between the registry
    devices_ and current_device_. Sharing is modelled with a devId field that
    stands for the pointer identity: a mutation of the current device also
    rewrites every registry entry carrying the same devId (updateDevice), and
    pointer comparison (current_device_ == device in OnDeviceLost) is devId
    equality.
  * External calls with no effect on the manager state (StopFind, Find,
    Connect, Cancel, Disconnect on a group, driver private commands, SetWFDIEs,
    delegate notifications) are recorded in an effect list.
  * A dereference of a null pointer (several handlers perform them) makes the
    modelled handler return none: a crashed process has no successor state.
  * Fields of the C++ class that no modelled handler reads or writes other
    than through opaque external calls (hostname_service_, interface_selector_,
    firmware_loader_, connection_, dedicated_p2p_interface_) are omitted;
    manager_ is kept as a Bool because ConfigureFromCapabilities guards on it.
  * g_timeout_add_seconds / g_source_remove: the timer is a Bool (armed);
    the timeout callback body is connectTimeoutFired and can only run armed.
-/

namespace Aethercast

/-- Connection states of a tracked device. The five values are the ones the
spec lists for NetworkDevice.state; mcs/types.h is not part of src/. -/
inductive NetworkDeviceState where
  | kDisconnected
  | kAssociation
  | kConfiguration
  | kConnected
  | kFailure
deriving DecidableEq

/-- Per-peer record (w11tng::NetworkDevice). devId models the identity of the
underlying shared object (pointer identity); networkdevice.cpp is not under
src/, so only the fields networkmanager.cpp reads or writes are modelled. -/
structure NetworkDevice where
  devId : Nat
  address : String
  objectPath : String
  state : NetworkDeviceState
  role : String
  ipAddress : Option String
deriving DecidableEq

/-- NetworkManager::Capability (source or sink). -/
inductive Capability where
  | kSource
  | kSink
deriving DecidableEq

/-- Modelled from the spec: the WFD device type enumeration of
informationelement.h, which is not under src/. The spec gives the value set
PrimarySink, Source, DualRole, Undefined. -/
inductive DeviceType where
  | kPrimarySink
  | kSource
  | kDualRole
  | kUndefined
deriving DecidableEq

/-- The two miracast driver modes networkmanager.cpp sends
(BuildMiracastModeCommand); the numeric values live in a header outside src/. -/
inductive MiracastMode where
  | Off
  | Source
deriving DecidableEq

/-- External calls a handler performs, in program order. -/
inductive Eff where
  | stopFind
  | find
  | p2pConnect (objectPath : String)
  | p2pCancel
  | groupDisconnect
  | driverCommand (ifname : String) (mode : MiracastMode)
  | setWFDIEs
  | notifyDeviceStateChanged (devId : Nat) (st : NetworkDeviceState)
  | notifyDeviceLost (devId : Nat)
deriving DecidableEq

/-- The manager state: the fields of w11tng::NetworkManager the modelled
handlers touch. -/
structure NetworkManager where
  p2pDevice : Option String
  mgmtInterface : Option String
  currentDevice : Option NetworkDevice
  currentGroupDevice : Option String
  currentGroupIface : Option String
  devices : List (String × NetworkDevice)
  connectTimeout : Bool
  dhcpClient : Bool
  dhcpServer : Bool
  sessionAvailable : Bool
  capabilities : List Capability
  manager : Bool
  hasDelegate : Bool
  nextId : Nat
deriving DecidableEq

/-- The state after the constructor: session_available_(true), every stub
null, no devices. -/
def initManager : NetworkManager where
  p2pDevice := none
  mgmtInterface := none
  currentDevice := none
  currentGroupDevice := none
  currentGroupIface := none
  devices := []
  connectTimeout := false
  dhcpClient := false
  dhcpServer := false
  sessionAvailable := true
  capabilities := []
  manager := false
  hasDelegate := false
  nextId := 0

/-- Writing through the shared pointer: replace the registry entries that
alias device d (same devId) by the new value. -/
def aliasUpd (d : NetworkDevice) (pd : String × NetworkDevice) :
    String × NetworkDevice :=
  if pd.2.devId = d.devId then (pd.1, d) else pd

/-- Mutate the current device (SetState / SetRole / SetIpV4Address on
current_device_): the new value is seen through current_device_ and through
every aliasing registry entry. -/
def updateDevice (m : NetworkManager) (d : NetworkDevice) : NetworkManager :=
  { m with currentDevice := some d, devices := m.devices.map (aliasUpd d) }

/-- std::map insertion keeps entries ordered by key; devices_ is keyed by
object path. -/
def insertDevice (l : List (String × NetworkDevice))
    (p : String × NetworkDevice) : List (String × NetworkDevice) :=
  match l with
  | [] => [p]
  | q :: rest => if p.1 < q.1 then p :: q :: rest else q :: insertDevice rest p

/-- NetworkManager::FindDevice: linear scan of devices_ (in key order) for the
first device with the given address. -/
def FindDevice (m : NetworkManager) (address : String) : Option NetworkDevice :=
  (m.devices.find? (fun pd => pd.2.address == address)).map Prod.snd

/-- NetworkManager::ConfigureFromCapabilities returns early when manager_ is
null; otherwise its only observable action is the SetWFDIEs call. -/
def configureFromCapabilities (m : NetworkManager) : List Eff :=
  if m.manager then [Eff.setWFDIEs] else []

/-- NetworkManager::AdvanceDeviceState applied, as at every call site, to
current_device_: SetState, the driver miracast-off command on entering
kDisconnected (dereferencing mgmt_interface_ -> none when that stub is null),
the session_available_ update and information-element republication on
entering kConnected or kDisconnected, and the delegate notification. -/
def advanceDeviceState (m : NetworkManager) (st : NetworkDeviceState) :
    Option (NetworkManager × List Eff) :=
  match m.currentDevice with
  | none => none
  | some c =>
    let m1 := updateDevice m { c with state := st }
    let notifyEffs : List Eff :=
      if m.hasDelegate then [Eff.notifyDeviceStateChanged c.devId st] else []
    if st = NetworkDeviceState.kDisconnected then
      match m.mgmtInterface with
      | none => none
      | some ifn =>
        some ({ m1 with sessionAvailable := true },
          Eff.driverCommand ifn MiracastMode.Off ::
            (configureFromCapabilities m ++ notifyEffs))
    else if st = NetworkDeviceState.kConnected then
      some ({ m1 with sessionAvailable := false },
        configureFromCapabilities m ++ notifyEffs)
    else
      some (m1, notifyEffs)

/-- NetworkManager::Connect. p2pAccepts is the Bool the external call
p2p_device_->Connect(path) returns. Returns (new state, return value,
external calls). -/
def Connect (m : NetworkManager) (device : Option NetworkDevice)
    (p2pAccepts : Bool) : NetworkManager × Bool × List Eff :=
  if m.p2pDevice = none ∨ m.currentDevice ≠ none then (m, false, [])
  else
    match device with
    | none => (m, false, [])
    | some dev =>
      match FindDevice m dev.address with
      | none => (m, false, [])
      | some d =>
        let m1 := { m with currentDevice := some d }
        let effs := [Eff.stopFind, Eff.p2pConnect d.objectPath]
        if p2pAccepts = false then (m1, false, effs)
        else
          let m2 := updateDevice m1 { d with state := NetworkDeviceState.kAssociation }
          let m3 := { m2 with connectTimeout := true }
          let notifyEffs : List Eff :=
            if m.hasDelegate then
              [Eff.notifyDeviceStateChanged d.devId NetworkDeviceState.kAssociation]
            else []
          (m3, true, effs ++ notifyEffs)

/-- NetworkManager::Disconnect. none models a crash: the guard checks only
p2p_device_ and current_device_, then device->Address() dereferences the
argument, and on a registry hit current_group_device_->Disconnect()
dereferences the group handle. -/
def Disconnect (m : NetworkManager) (device : Option NetworkDevice) :
    Option (NetworkManager × Bool × List Eff) :=
  if m.p2pDevice = none ∨ m.currentDevice = none then some (m, false, [])
  else
    match device with
    | none => none
    | some dev =>
      match FindDevice m dev.address with
      | none => some (m, false, [])
      | some _ =>
        match m.currentGroupDevice with
        | none => none
        | some _ => some (m, true, [Eff.groupDisconnect])

/-- The body of the g_timeout_add_seconds callback in
NetworkManager::StartConnectTimeout, run when the armed timer fires. It
dereferences current_device_ for the warning log before any check, zeroes
connect_timeout_, returns once the device is kConnected or kConfiguration,
and otherwise cancels the P2P attempt (dereferencing p2p_device_), drives the
device to kFailure and clears current_device_. -/
def connectTimeoutFired (m : NetworkManager) :
    Option (NetworkManager × List Eff) :=
  match m.currentDevice with
  | none => none
  | some c =>
    let m1 := { m with connectTimeout := false }
    if c.state = NetworkDeviceState.kConnected ∨
        c.state = NetworkDeviceState.kConfiguration then
      some (m1, [])
    else
      match m.p2pDevice with
      | none => none
      | some _ =>
        match advanceDeviceState m1 NetworkDeviceState.kFailure with
        | none => none
        | some (m2, effs) =>
          some ({ m2 with currentDevice := none }, Eff.p2pCancel :: effs)

/-- NetworkManager::HandleConnectFailed: Failure transition, clear
current_device_, stop the timeout. -/
def HandleConnectFailed (m : NetworkManager) :
    Option (NetworkManager × List Eff) :=
  match advanceDeviceState m NetworkDeviceState.kFailure with
  | none => none
  | some (m1, effs) =>
    some ({ m1 with currentDevice := none, connectTimeout := false }, effs)

/-- NetworkManager::OnPeerConnectFailed. -/
def OnPeerConnectFailed (m : NetworkManager) :
    Option (NetworkManager × List Eff) :=
  match m.currentDevice with
  | none => some (m, [])
  | some _ => HandleConnectFailed m

/-- NetworkManager::OnGroupOwnerNegotiationFailure: same state effect as
OnPeerConnectFailed (the result is only logged). -/
def OnGroupOwnerNegotiationFailure (m : NetworkManager) (peerPath : String) :
    Option (NetworkManager × List Eff) :=
  match m.currentDevice with
  | none => some (m, [])
  | some _ => HandleConnectFailed m

/-- NetworkManager::OnGroupOwnerNegotiationSuccess only logs. -/
def OnGroupOwnerNegotiationSuccess (m : NetworkManager) (peerPath : String) :
    NetworkManager × List Eff :=
  (m, [])

/-- NetworkManager::OnGroupStarted: ignored without a current device;
otherwise Configuration transition, record the role, create the group
interface stub and group device stub from interface_path. -/
def OnGroupStarted (m : NetworkManager)
    (groupPath interfacePath role : String) :
    Option (NetworkManager × List Eff) :=
  match m.currentDevice with
  | none => some (m, [])
  | some _ =>
    match advanceDeviceState m NetworkDeviceState.kConfiguration with
    | none => none
    | some (m1, effs) =>
      match m1.currentDevice with
      | none => none
      | some c1 =>
        let m2 := updateDevice m1 { c1 with role := role }
        some ({ m2 with currentGroupIface := some interfacePath,
                        currentGroupDevice := some interfacePath }, effs)

/-- NetworkManager::OnGroupFinished: ignored without a current device;
otherwise stop the timeout, drop both DHCP handles, drop both group handles,
Disconnected transition, clear current_device_. -/
def OnGroupFinished (m : NetworkManager) (groupPath interfacePath : String) :
    Option (NetworkManager × List Eff) :=
  match m.currentDevice with
  | none => some (m, [])
  | some _ =>
    let m1 := { m with connectTimeout := false, dhcpClient := false,
                       dhcpServer := false, currentGroupIface := none,
                       currentGroupDevice := none }
    match advanceDeviceState m1 NetworkDeviceState.kDisconnected with
    | none => none
    | some (m2, effs) => some ({ m2 with currentDevice := none }, effs)

/-- NetworkManager::OnDhcpAddressAssigned: ignored unless the current device
exists and is in kConfiguration; record the remote address, stop the timeout,
Connected transition. -/
def OnDhcpAddressAssigned (m : NetworkManager)
    (localAddress remoteAddress : String) : NetworkManager × List Eff :=
  match m.currentDevice with
  | none => (m, [])
  | some c =>
    if c.state = NetworkDeviceState.kConfiguration then
      let m1 := updateDevice m { c with ipAddress := some remoteAddress }
      let m2 := { m1 with connectTimeout := false }
      match advanceDeviceState m2 NetworkDeviceState.kConnected with
      | none => (m2, [])
      | some r => r
    else (m, [])

/-- NetworkManager::OnDhcpTerminated: ignored unless the current device exists
and is in kConfiguration; calls Disconnect(current_device_) (return value
ignored) and drives the device to kFailure. It neither stops the connect
timeout nor releases the group handles. -/
def OnDhcpTerminated (m : NetworkManager) :
    Option (NetworkManager × List Eff) :=
  match m.currentDevice with
  | none => some (m, [])
  | some c =>
    if c.state = NetworkDeviceState.kConfiguration then
      match Disconnect m (some c) with
      | none => none
      | some (m1, _, effs1) =>
        match advanceDeviceState m1 NetworkDeviceState.kFailure with
        | none => none
        | some (m2, effs2) => some (m2, effs1 ++ effs2)
    else some (m, [])

/-- NetworkManager::OnDeviceFound: new object paths get a fresh NetworkDevice
registered under the path; a known path is a no-op. The initial connection
state and the address the device later reports are not in src/
(networkdevice.cpp); the address is taken as an event datum and the initial
state is kDisconnected, following the state diagram of the spec. -/
def OnDeviceFound (m : NetworkManager) (path address : String) :
    NetworkManager :=
  match m.devices.find? (fun pd => pd.1 == path) with
  | some _ => m
  | none =>
    let d : NetworkDevice :=
      { devId := m.nextId, address := address, objectPath := path,
        state := NetworkDeviceState.kDisconnected, role := "",
        ipAddress := none }
    { m with devices := insertDevice m.devices (path, d),
             nextId := m.nextId + 1 }

/-- NetworkManager::OnDeviceLost: erase the path from the registry; when the
lost device is the current one and a group handle exists, request group
termination; notify the delegate. current_device_ is not cleared here. -/
def OnDeviceLost (m : NetworkManager) (path : String) :
    NetworkManager × List Eff :=
  match m.devices.find? (fun pd => pd.1 == path) with
  | none => (m, [])
  | some pd =>
    let m1 := { m with devices := m.devices.filter (fun qd => qd.1 != path) }
    let discEffs : List Eff :=
      match m.currentDevice with
      | some c =>
        if c.devId = pd.2.devId ∧ m.currentGroupDevice ≠ none then
          [Eff.groupDisconnect]
        else []
      | none => []
    let lostEffs : List Eff :=
      if m.hasDelegate then [Eff.notifyDeviceLost pd.2.devId] else []
    (m1, discEffs ++ lostEffs)

/-- NetworkManager::ReleaseInterface: with a current device, Disconnected
transition (dereferencing mgmt_interface_), then clear current_device_ and
both group handles; in every case drop p2p_device_ and mgmt_interface_.
The connect timeout is not stopped here. -/
def ReleaseInterface (m : NetworkManager) :
    Option (NetworkManager × List Eff) :=
  match m.currentDevice with
  | none => some ({ m with p2pDevice := none, mgmtInterface := none }, [])
  | some _ =>
    match advanceDeviceState m NetworkDeviceState.kDisconnected with
    | none => none
    | some (m1, effs) =>
      some ({ m1 with currentDevice := none, currentGroupDevice := none,
                      currentGroupIface := none, p2pDevice := none,
                      mgmtInterface := none }, effs)

/-- NetworkManager::ReleaseInternal: ReleaseInterface plus dropping the
manager stub (and the hostname/selector stubs, which are not modelled). -/
def ReleaseInternal (m : NetworkManager) :
    Option (NetworkManager × List Eff) :=
  match ReleaseInterface m with
  | none => none
  | some (m1, effs) => some ({ m1 with manager := false }, effs)

/-- NetworkManager::SetupInterface: a no-op once p2p_device_ exists;
otherwise create the management interface stub and the P2P device stub from
the object path. -/
def SetupInterface (m : NetworkManager) (objectPath : String) :
    NetworkManager :=
  if m.p2pDevice ≠ none then m
  else { m with mgmtInterface := some objectPath, p2pDevice := some objectPath }

/-- NetworkManager::Initialize (the part past firmware loading): creates the
hostname service, interface selector and manager stubs; only the manager stub
is a modelled field. -/
def Initialize (m : NetworkManager) : NetworkManager :=
  { m with manager := true }

/-- NetworkManager::Scan: no-op without a P2P device, otherwise a Find
request. -/
def Scan (m : NetworkManager) : NetworkManager × List Eff :=
  if m.p2pDevice = none then (m, []) else (m, [Eff.find])

/-- NetworkManager::OnManagerInterfaceRemoved: dereferences
p2p_device_->ObjectPath() before any check; releases the interface when the
removed path is the P2P device's. -/
def OnManagerInterfaceRemoved (m : NetworkManager) (path : String) :
    Option (NetworkManager × List Eff) :=
  match m.p2pDevice with
  | none => none
  | some p2pPath =>
    if p2pPath = path then ReleaseInterface m else some (m, [])

/-- NetworkManager::OnGroupInterfaceReady: ignored unless the current device
exists and is in kConfiguration; reads the group interface name
(dereferencing current_group_iface_), sends the miracast-source driver
command on the management interface (dereferencing mgmt_interface_), then
starts a DHCP server when the role is GO, a DHCP client otherwise. -/
def OnGroupInterfaceReady (m : NetworkManager) :
    Option (NetworkManager × List Eff) :=
  match m.currentDevice with
  | none => some (m, [])
  | some c =>
    if c.state = NetworkDeviceState.kConfiguration then
      match m.currentGroupIface, m.mgmtInterface with
      | some _, some ifn =>
        let effs := [Eff.driverCommand ifn MiracastMode.Source]
        if c.role = "GO" then some ({ m with dhcpServer := true }, effs)
        else some ({ m with dhcpClient := true }, effs)
      | _, _ => none
    else some (m, [])

/-- NetworkManager::SetCapabilities: value comparison first, then assignment
and republication. -/
def SetCapabilities (m : NetworkManager) (caps : List Capability) :
    NetworkManager × List Eff :=
  if caps = m.capabilities then (m, [])
  else ({ m with capabilities := caps },
    configureFromCapabilities { m with capabilities := caps })

/-- NetworkManager::GenerateWfdDeviceType. The C++ local device_type is
declared without an initializer and the three if branches leave it untouched
when the capability set holds neither source nor sink; the indeterminate
initial value is the explicit first argument. The fold mirrors the
capability loop. -/
def GenerateWfdDeviceType (device_type : DeviceType)
    (capabilities : List Capability) : DeviceType :=
  let flags := capabilities.foldl
    (fun (f : Bool × Bool) capability =>
      if capability = Capability.kSource then (true, f.2)
      else if capability = Capability.kSink then (f.1, true)
      else f)
    (false, false)
  let has_source := flags.1
  let has_sink := flags.2
  if has_sink ∧ ¬ has_source then DeviceType.kPrimarySink
  else if ¬ has_sink ∧ has_source then DeviceType.kSource
  else if has_sink ∧ has_source then DeviceType.kDualRole
  else device_type

/-- The events the environment can deliver: the public API calls and every
delegate callback of networkmanager.cpp that touches a modelled field.
The remaining handlers (OnManagerReady, OnManagerInterfaceAdded,
OnManagerInterfaceCreationFailed, OnP2PDeviceReady, OnP2PDeviceChanged,
OnDeviceReady, OnDeviceChanged, OnGroupRequest, OnHostnameChanged,
OnFirmwareLoaded, OnFirmwareUnloaded, OnManagementInterfaceReady) only issue
external calls or forward to a delegate and leave every modelled field as it
is; OnInterfaceSelectionDone is covered by setupInterface and OnFirmwareLoaded
by serviceFound. -/
inductive Event where
  | serviceFound
  | serviceLost
  | setupInterface (objectPath : String)
  | interfaceRemoved (path : String)
  | setDelegate (present : Bool)
  | scan
  | connect (device : Option NetworkDevice) (p2pAccepts : Bool)
  | disconnect (device : Option NetworkDevice)
  | deviceFound (path address : String)
  | deviceLost (path : String)
  | peerConnectFailed
  | negotiationFailure (peerPath : String)
  | negotiationSuccess (peerPath : String)
  | groupStarted (groupPath interfacePath role : String)
  | groupFinished (groupPath interfacePath : String)
  | groupInterfaceReady
  | dhcpAddressAssigned (localAddress remoteAddress : String)
  | dhcpTerminated
  | timeoutFired
  | setCapabilities (caps : List Capability)

/-- One event dispatch. none when the handler crashes on a null dereference
(no successor state) or, for timeoutFired, when the timer is not armed. -/
def step (m : NetworkManager) : Event → Option NetworkManager
  | Event.serviceFound => some (Initialize m)
  | Event.serviceLost => (ReleaseInternal m).map Prod.fst
  | Event.setupInterface p => some (SetupInterface m p)
  | Event.interfaceRemoved p => (OnManagerInterfaceRemoved m p).map Prod.fst
  | Event.setDelegate b => some { m with hasDelegate := b }
  | Event.scan => some (Scan m).1
  | Event.connect d acc => some (Connect m d acc).1
  | Event.disconnect d => (Disconnect m d).map Prod.fst
  | Event.deviceFound p a => some (OnDeviceFound m p a)
  | Event.deviceLost p => some (OnDeviceLost m p).1
  | Event.peerConnectFailed => (OnPeerConnectFailed m).map Prod.fst
  | Event.negotiationFailure p => (OnGroupOwnerNegotiationFailure m p).map Prod.fst
  | Event.negotiationSuccess p => some (OnGroupOwnerNegotiationSuccess m p).1
  | Event.groupStarted g i r => (OnGroupStarted m g i r).map Prod.fst
  | Event.groupFinished g i => (OnGroupFinished m g i).map Prod.fst
  | Event.groupInterfaceReady => (OnGroupInterfaceReady m).map Prod.fst
  | Event.dhcpAddressAssigned l r => some (OnDhcpAddressAssigned m l r).1
  | Event.dhcpTerminated => (OnDhcpTerminated m).map Prod.fst
  | Event.timeoutFired =>
      if m.connectTimeout then (connectTimeoutFired m).map Prod.fst else none
  | Event.setCapabilities caps => some (SetCapabilities m caps).1

/-- The reachable manager states: the constructed state and everything any
event sequence produces from it. -/
inductive Reachable : NetworkManager → Prop where
  | init : Reachable initManager
  | step {m m' : NetworkManager} {e : Event} :
      Reachable m → step m e = some m' → Reachable m'

/-- Run a list of events. -/
def runTrace (m : NetworkManager) : List Event → Option NetworkManager
  | [] => some m
  | e :: es =>
    match step m e with
    | none => none
    | some m1 => runTrace m1 es

theorem reachable_runTrace {m m' : NetworkManager} {es : List Event}
    (hm : Reachable m) (h : runTrace m es = some m') : Reachable m' := by
  induction es generalizing m with
  | nil => simp [runTrace] at h; exact h ▸ hm
  | cons e es ih =>
    simp only [runTrace] at h
    cases hs : step m e with
    | none => rw [hs] at h; exact absurd h (by simp)
    | some m1 => rw [hs] at h; exact ih (Reachable.step hm hs) h

/-! ### Concrete executions used as witnesses and counterexamples

A single session against one discovered peer; the same prefix is shared by
several claims. The argument device carries the address of the discovered
peer; Connect only reads its address. -/

/-- A caller-side device handle for the peer with address a. -/
def argDev : NetworkDevice :=
  { devId := 99, address := "a", objectPath := "x",
    state := NetworkDeviceState.kDisconnected, role := "", ipAddress := none }

/-- The registry entry OnDeviceFound creates for path d, address a. -/
def regDev : NetworkDevice :=
  { devId := 0, address := "a", objectPath := "d",
    state := NetworkDeviceState.kDisconnected, role := "", ipAddress := none }

/-- P2P interface set up, one peer discovered. -/
def traceReg : List Event := [Event.setupInterface "i", Event.deviceFound "d" "a"]

/-- traceReg, then a successful Connect. -/
def traceAssoc : List Event := traceReg ++ [Event.connect (some argDev) true]

/-- traceAssoc, then the group-started event (role GO). -/
def traceCfg : List Event := traceAssoc ++ [Event.groupStarted "g" "gi" "GO"]

/-- traceCfg, then DHCP termination. -/
def traceDhcpFail : List Event := traceCfg ++ [Event.dhcpTerminated]

/-- traceCfg, then the connect timeout fires (a no-op during Configuration). -/
def traceNoopFire : List Event := traceCfg ++ [Event.timeoutFired]

def mReg : NetworkManager := (runTrace initManager traceReg).getD initManager

def mAssoc : NetworkManager := (runTrace initManager traceAssoc).getD initManager

def mCfg : NetworkManager := (runTrace initManager traceCfg).getD initManager

def mDhcpFail : NetworkManager :=
  (runTrace initManager traceDhcpFail).getD initManager

def mNoopFire : NetworkManager :=
  (runTrace initManager traceNoopFire).getD initManager

theorem reachable_mReg : Reachable mReg :=
  @reachable_runTrace initManager mReg traceReg Reachable.init (by decide)

theorem reachable_mAssoc : Reachable mAssoc :=
  @reachable_runTrace initManager mAssoc traceAssoc Reachable.init (by decide)

theorem reachable_mCfg : Reachable mCfg :=
  @reachable_runTrace initManager mCfg traceCfg Reachable.init (by decide)

theorem reachable_mDhcpFail : Reachable mDhcpFail :=
  @reachable_runTrace initManager mDhcpFail traceDhcpFail Reachable.init (by decide)

theorem reachable_mNoopFire : Reachable mNoopFire :=
  @reachable_runTrace initManager mNoopFire traceNoopFire Reachable.init (by decide)

/-! ### The spec-worded session invariants (the claims under C1 and C4) -/

/-- The current device exists and its state is one of sts. -/
def currentStateIn (m : NetworkManager) (sts : List NetworkDeviceState) : Bool :=
  match m.currentDevice with
  | some c => sts.contains c.state
  | none => false

/-- Claim C1 as the spec words it: the group handles are non-null exactly
when the current device exists and is in Configuration or Connected. -/
def groupHandlesMatchState (m : NetworkManager) : Bool :=
  (m.currentGroupDevice.isSome && m.currentGroupIface.isSome) ==
    currentStateIn m
      [NetworkDeviceState.kConfiguration, NetworkDeviceState.kConnected]

/-- Claim C4 as the spec words it: the connect timeout is armed exactly when
the current device exists and is neither Connected nor Failure. -/
def timerMatchesState (m : NetworkManager) : Bool :=
  m.connectTimeout ==
    (m.currentDevice.isSome &&
      !currentStateIn m [NetworkDeviceState.kConnected, NetworkDeviceState.kFailure])

/-- The device found by registry lookup is a registry value. -/
theorem findDevice_mem {m : NetworkManager} {a : String} {d : NetworkDevice}
    (h : FindDevice m a = some d) : ∃ p, (p, d) ∈ m.devices := by
  unfold FindDevice at h
  cases hf : m.devices.find? (fun pd => pd.2.address == a) with
  | none => rw [hf] at h; exact absurd h (by simp)
  | some pd =>
    rw [hf] at h
    simp only [Option.map_some', Option.some.injEq] at h
    exact ⟨pd.1, by
      have := List.mem_of_find?_eq_some hf
      rwa [← h, Prod.mk.eta]⟩

/-- Rewriting through the same shared pointer twice only keeps the second
write. -/
theorem map_aliasUpd_comp (l : List (String × NetworkDevice))
    (c1 c2 : NetworkDevice) (h : c2.devId = c1.devId) :
    (l.map (aliasUpd c1)).map (aliasUpd c2) = l.map (aliasUpd c2) := by
  induction l with
  | nil => simp
  | cons p t ih =>
    simp only [List.map_cons, ih]
    unfold aliasUpd
    by_cases hp : p.2.devId = c1.devId
    · simp [hp, h]
    · simp [hp]

/-! ### Claim theorems -/

/-- Claim C5: GenerateWfdDeviceType maps a sink-only capability set to
PrimarySink, a source-only set to Source and a mixed set to DualRole
whatever value the uninitialized local held, but on a capability set with
neither member it returns the indeterminate initial value of the
uninitialized local device_type instead of Undefined. -/
theorem generate_wfd_device_type_eval :
    (GenerateWfdDeviceType DeviceType.kUndefined [Capability.kSink] =
      DeviceType.kPrimarySink) ∧
    (GenerateWfdDeviceType DeviceType.kSource [Capability.kSink] =
      DeviceType.kPrimarySink) ∧
    (GenerateWfdDeviceType DeviceType.kUndefined [Capability.kSource] =
      DeviceType.kSource) ∧
    (GenerateWfdDeviceType DeviceType.kDualRole [Capability.kSource] =
      DeviceType.kSource) ∧
    (GenerateWfdDeviceType DeviceType.kUndefined
      [Capability.kSource, Capability.kSink] = DeviceType.kDualRole) ∧
    (GenerateWfdDeviceType DeviceType.kUndefined
      [Capability.kSink, Capability.kSource] = DeviceType.kDualRole) ∧
    (GenerateWfdDeviceType DeviceType.kSource [] = DeviceType.kSource) ∧
    (GenerateWfdDeviceType DeviceType.kPrimarySink [] =
      DeviceType.kPrimarySink) ∧
    (GenerateWfdDeviceType DeviceType.kSource [] ≠ DeviceType.kUndefined) := by
  decide

/-- Claim C1, counterexample: after Connect, group-started and
DHCP-terminated the reachable state mDhcpFail keeps both group handles while
the current device is in kFailure, so the biconditional of the spec fails. -/
theorem group_handles_iff_counterexample :
    Reachable mDhcpFail ∧ groupHandlesMatchState mDhcpFail = false :=
  ⟨reachable_mDhcpFail, by decide⟩

/-- Claim C4, counterexample: after Connect, group-started and a timeout that
fires as a no-op during Configuration, the reachable state mNoopFire has the
current device in kConfiguration with the timer no longer armed, so the
biconditional of the spec fails. -/
theorem timer_iff_counterexample :
    Reachable mNoopFire ∧ timerMatchesState mNoopFire = false :=
  ⟨reachable_mNoopFire, by decide⟩

/-- Claim C2: when the armed connect timeout fires with a current device in
kConnected or kConfiguration the callback only clears the timer id (no state
transition, no released handle, no cleared device); in any other state, if
the P2P device exists, it cancels the P2P attempt, drives the device to
kFailure (seen by every registry alias and the delegate) and clears
current_device_. -/
theorem connect_timeout_fire_spec (m : NetworkManager) (c : NetworkDevice)
    (hc : m.currentDevice = some c) :
    ((c.state = NetworkDeviceState.kConnected ∨
        c.state = NetworkDeviceState.kConfiguration) →
      connectTimeoutFired m = some ({ m with connectTimeout := false }, [])) ∧
    (c.state ≠ NetworkDeviceState.kConnected →
      c.state ≠ NetworkDeviceState.kConfiguration →
      ∀ p, m.p2pDevice = some p →
      connectTimeoutFired m =
        some ({ m with connectTimeout := false, currentDevice := none,
                       devices := m.devices.map
                         (aliasUpd { c with state := NetworkDeviceState.kFailure }) },
          Eff.p2pCancel ::
            (if m.hasDelegate then
              [Eff.notifyDeviceStateChanged c.devId NetworkDeviceState.kFailure]
            else []))) := by
  constructor
  · intro h
    simp [connectTimeoutFired, hc, h]
  · intro h1 h2 p hp
    simp [connectTimeoutFired, hc, h1, h2, hp, advanceDeviceState, updateDevice,
      configureFromCapabilities]

/-- The current device in state mAssoc. -/
def devAssoc : NetworkDevice :=
  { regDev with state := NetworkDeviceState.kAssociation }

/-- The current device in state mCfg (role recorded by the group-started
event). -/
def devCfg : NetworkDevice :=
  { regDev with state := NetworkDeviceState.kConfiguration, role := "GO" }

/-- Claim C2, witness: the failure branch evaluated in the reachable state
mAssoc. -/
theorem connect_timeout_fire_spec_witness :
    connectTimeoutFired mAssoc =
      some ({ mAssoc with connectTimeout := false, currentDevice := none,
                          devices := mAssoc.devices.map
                            (aliasUpd { devAssoc with
                              state := NetworkDeviceState.kFailure }) },
        Eff.p2pCancel ::
          (if mAssoc.hasDelegate then
            [Eff.notifyDeviceStateChanged devAssoc.devId NetworkDeviceState.kFailure]
          else [])) :=
  (connect_timeout_fire_spec mAssoc devAssoc (by decide)).2
    (by decide) (by decide) "i" (by decide)

/-- Claim C3, counterexample: in the reachable state mReg none of the four
failure conditions of the claim holds (the P2P device is set up, no
connection is in progress, the argument is non-null and its address is
registered), yet Connect returns false because the P2P layer rejected the
connect request. -/
theorem connect_spec_counterexample :
    mReg.p2pDevice ≠ none ∧ mReg.currentDevice = none ∧
    FindDevice mReg argDev.address = some regDev ∧
    (Connect mReg (some argDev) false).2.1 = false := by decide

/-- Claim C3 as amended: the four precondition failures return false with no
state change and no external call; otherwise Connect binds current_device_,
stops discovery and issues the P2P connect request, and when the P2P layer
accepts the request it transitions the device to kAssociation, notifies the
delegate, arms the connect timeout and returns true. -/
theorem connect_spec (m : NetworkManager) (d : Option NetworkDevice)
    (acc : Bool) :
    ((m.p2pDevice = none ∨ m.currentDevice ≠ none) →
      Connect m d acc = (m, false, [])) ∧
    (d = none → Connect m d acc = (m, false, [])) ∧
    (∀ dev, d = some dev → FindDevice m dev.address = none →
      Connect m d acc = (m, false, [])) ∧
    (∀ dev d0, d = some dev → m.p2pDevice ≠ none → m.currentDevice = none →
      FindDevice m dev.address = some d0 →
      Connect m d true =
        ({ m with currentDevice :=
                    some { d0 with state := NetworkDeviceState.kAssociation },
                  connectTimeout := true,
                  devices := m.devices.map
                    (aliasUpd { d0 with state := NetworkDeviceState.kAssociation }) },
         true,
         [Eff.stopFind, Eff.p2pConnect d0.objectPath] ++
           (if m.hasDelegate then
             [Eff.notifyDeviceStateChanged d0.devId NetworkDeviceState.kAssociation]
           else []))) := by
  refine ⟨?_, ?_, ?_, ?_⟩
  · intro h
    simp [Connect, h]
  · intro h
    subst h
    by_cases hg : m.p2pDevice = none ∨ m.currentDevice ≠ none <;>
      simp [Connect, hg]
  · intro dev hd hf
    subst hd
    by_cases hg : m.p2pDevice = none ∨ m.currentDevice ≠ none <;>
      simp [Connect, hg, hf]
  · intro dev d0 hd hp hc hf
    subst hd
    have hg : ¬ (m.p2pDevice = none ∨ m.currentDevice ≠ none) := by
      simp [hc]
      intro h
      exact absurd h hp
    simp [Connect, hg, hf, updateDevice]

/-- Claim C3, witness: the success branch evaluated in the reachable state
mReg. -/
theorem connect_spec_witness :
    Connect mReg (some argDev) true =
      ({ mReg with currentDevice :=
                     some { regDev with state := NetworkDeviceState.kAssociation },
                   connectTimeout := true,
                   devices := mReg.devices.map
                     (aliasUpd { regDev with state := NetworkDeviceState.kAssociation }) },
       true,
       [Eff.stopFind, Eff.p2pConnect regDev.objectPath] ++
         (if mReg.hasDelegate then
           [Eff.notifyDeviceStateChanged regDev.devId NetworkDeviceState.kAssociation]
         else [])) :=
  (connect_spec mReg (some argDev) true).2.2.2 argDev regDev rfl
    (by decide) (by decide) (by decide)

/-- Claim C10: when the P2P layer rejects the connect request, Connect
returns false with current_device_ bound to the registry instance, only the
stop-discovery and connect requests issued, the registry (and the target
device in it) untouched and the timer as it was; every later Connect call on
that state fails the connection-in-progress precondition with no change, and
only releasing the interface clears the bound device again. -/
theorem connect_rejected_stuck (m : NetworkManager) (dev d0 : NetworkDevice)
    (h1 : m.p2pDevice ≠ none) (h2 : m.currentDevice = none)
    (h3 : FindDevice m dev.address = some d0) :
    Connect m (some dev) false =
      ({ m with currentDevice := some d0 }, false,
        [Eff.stopFind, Eff.p2pConnect d0.objectPath]) ∧
    (∀ d2 acc, Connect { m with currentDevice := some d0 } d2 acc =
        ({ m with currentDevice := some d0 }, false, [])) ∧
    (∀ ifn, m.mgmtInterface = some ifn →
      ∃ m2 effs, ReleaseInterface { m with currentDevice := some d0 } =
          some (m2, effs) ∧ m2.currentDevice = none) := by
  have hg : ¬ (m.p2pDevice = none ∨ m.currentDevice ≠ none) := by
    simp [h2]
    intro h
    exact absurd h h1
  refine ⟨?_, ?_, ?_⟩
  · simp [Connect, hg, h3]
  · intro d2 acc
    simp [Connect]
  · intro ifn hi
    refine ⟨{ m with currentDevice := none, currentGroupDevice := none,
                     currentGroupIface := none, p2pDevice := none,
                     mgmtInterface := none, sessionAvailable := true,
                     devices := m.devices.map
                       (aliasUpd { d0 with
                         state := NetworkDeviceState.kDisconnected }) },
            Eff.driverCommand ifn MiracastMode.Off ::
              ((if m.manager then [Eff.setWFDIEs] else []) ++
                (if m.hasDelegate then
                  [Eff.notifyDeviceStateChanged d0.devId
                    NetworkDeviceState.kDisconnected]
                else [])), ?_, ?_⟩
    · simp [ReleaseInterface, advanceDeviceState, hi, updateDevice,
        configureFromCapabilities]
    · simp

/-- Claim C10, witness: the rejection branch evaluated in the reachable
state mReg. -/
theorem connect_rejected_stuck_witness :
    Connect mReg (some argDev) false =
      ({ mReg with currentDevice := some regDev }, false,
        [Eff.stopFind, Eff.p2pConnect regDev.objectPath]) :=
  (connect_rejected_stuck mReg argDev regDev (by decide) (by decide)
    (by decide)).1

/-- Claim C6: the group-finished event is ignored without a current device;
with one (and the management interface it dereferences on the Disconnected
transition), it clears the timer, drops the DHCP client and server handles
and both group handles, transitions the device to kDisconnected (republishing
availability and notifying the delegate) and clears current_device_, all
within the one handler. -/
theorem group_finished_spec (m : NetworkManager) (g i : String) :
    (m.currentDevice = none → OnGroupFinished m g i = some (m, [])) ∧
    (∀ c ifn, m.currentDevice = some c → m.mgmtInterface = some ifn →
      OnGroupFinished m g i =
        some ({ m with connectTimeout := false, dhcpClient := false,
                       dhcpServer := false, currentGroupIface := none,
                       currentGroupDevice := none, currentDevice := none,
                       sessionAvailable := true,
                       devices := m.devices.map
                         (aliasUpd { c with
                           state := NetworkDeviceState.kDisconnected }) },
          Eff.driverCommand ifn MiracastMode.Off ::
            ((if m.manager then [Eff.setWFDIEs] else []) ++
              (if m.hasDelegate then
                [Eff.notifyDeviceStateChanged c.devId
                  NetworkDeviceState.kDisconnected]
              else [])))) := by
  constructor
  · intro h
    simp [OnGroupFinished, h]
  · intro c ifn hc hi
    simp [OnGroupFinished, hc, advanceDeviceState, hi, updateDevice,
      configureFromCapabilities]

/-- Claim C6, witness: the active branch evaluated in the reachable state
mCfg. -/
theorem group_finished_spec_witness :
    OnGroupFinished mCfg "g" "gi" =
      some ({ mCfg with connectTimeout := false, dhcpClient := false,
                        dhcpServer := false, currentGroupIface := none,
                        currentGroupDevice := none, currentDevice := none,
                        sessionAvailable := true,
                        devices := mCfg.devices.map
                          (aliasUpd { devCfg with
                            state := NetworkDeviceState.kDisconnected }) },
        Eff.driverCommand "i" MiracastMode.Off ::
          ((if mCfg.manager then [Eff.setWFDIEs] else []) ++
            (if mCfg.hasDelegate then
              [Eff.notifyDeviceStateChanged devCfg.devId
                NetworkDeviceState.kDisconnected]
            else []))) :=
  (group_finished_spec mCfg "g" "gi").2 devCfg "i" (by decide) (by decide)

/-- Claim C7: DHCP address assignment is ignored unless the current device
exists and is in kConfiguration; when it applies it stores the remote
address as the device address, clears the timer and transitions the device
to kConnected (dropping session availability and notifying the delegate). -/
theorem dhcp_address_assigned_spec (m : NetworkManager) (l r : String) :
    (m.currentDevice = none → OnDhcpAddressAssigned m l r = (m, [])) ∧
    (∀ c, m.currentDevice = some c →
      c.state ≠ NetworkDeviceState.kConfiguration →
      OnDhcpAddressAssigned m l r = (m, [])) ∧
    (∀ c, m.currentDevice = some c →
      c.state = NetworkDeviceState.kConfiguration →
      OnDhcpAddressAssigned m l r =
        ({ m with connectTimeout := false, sessionAvailable := false,
                  currentDevice := some { c with ipAddress := some r, state := NetworkDeviceState.kConnected },
                  devices := m.devices.map
                    (aliasUpd { c with ipAddress := some r, state := NetworkDeviceState.kConnected }) },
         (if m.manager then [Eff.setWFDIEs] else []) ++
           (if m.hasDelegate then
             [Eff.notifyDeviceStateChanged c.devId NetworkDeviceState.kConnected]
           else []))) := by
  refine ⟨?_, ?_, ?_⟩
  · intro h
    simp [OnDhcpAddressAssigned, h]
  · intro c hc hs
    simp [OnDhcpAddressAssigned, hc, hs]
  · intro c hc hs
    simp only [OnDhcpAddressAssigned, hc, hs, if_pos, advanceDeviceState,
      updateDevice, configureFromCapabilities]
    simp
    intro a b hmem
    unfold aliasUpd
    by_cases hb : b.devId = c.devId <;> simp [hb]

/-- Claim C7, witness: the active branch evaluated in the reachable state
mCfg, with the addresses of the scenario in the spec. -/
theorem dhcp_address_assigned_spec_witness :
    OnDhcpAddressAssigned mCfg "10.0.0.1" "10.0.0.2" =
      ({ mCfg with connectTimeout := false, sessionAvailable := false,
                   currentDevice := some { devCfg with ipAddress := some "10.0.0.2", state := NetworkDeviceState.kConnected },
                   devices := mCfg.devices.map
                     (aliasUpd { devCfg with ipAddress := some "10.0.0.2", state := NetworkDeviceState.kConnected }) },
       (if mCfg.manager then [Eff.setWFDIEs] else []) ++
         (if mCfg.hasDelegate then
           [Eff.notifyDeviceStateChanged devCfg.devId
             NetworkDeviceState.kConnected]
         else [])) :=
  (dhcp_address_assigned_spec mCfg "10.0.0.1" "10.0.0.2").2.2 devCfg
    (by decide) (by decide)

/-- Claim C8: Disconnect never changes the manager state synchronously (in
particular no device reaches kDisconnected within the call, that transition
only happens in the group-finished handler), so two calls in succession are
state-idempotent, and once current_device_ has been cleared a further call
fails its precondition check, returning false with no effect. -/
theorem disconnect_idempotent_async (m : NetworkManager)
    (d d2 : Option NetworkDevice) :
    (∀ m1 r effs, Disconnect m d = some (m1, r, effs) → m1 = m) ∧
    (m.currentDevice = none → Disconnect m d = some (m, false, [])) ∧
    (∀ m1 r effs m2 r2 effs2, Disconnect m d = some (m1, r, effs) →
      Disconnect m1 d2 = some (m2, r2, effs2) → m2 = m1) := by
  have hstate : ∀ (x : NetworkManager) (y : Option NetworkDevice)
      (m1 : NetworkManager) (r : Bool) (effs : List Eff),
      Disconnect x y = some (m1, r, effs) → m1 = x := by
    intro x y m1 r effs h
    unfold Disconnect at h
    split at h
    · simp at h
      exact h.1.symm
    · cases y with
      | none => exact absurd h (by simp)
      | some dev =>
        simp only at h
        cases hf : FindDevice x dev.address with
        | none =>
          rw [hf] at h
          simp at h
          exact h.1.symm
        | some d1 =>
          rw [hf] at h
          cases hg : x.currentGroupDevice with
          | none => rw [hg] at h; exact absurd h (by simp)
          | some gp =>
            rw [hg] at h
            simp at h
            exact h.1.symm
  refine ⟨hstate m d, ?_, ?_⟩
  · intro h
    simp [Disconnect, h]
  · intro m1 r effs m2 r2 effs2 h1 h2
    exact hstate m1 d2 m2 r2 effs2 h2

/-- Claim C8, witness: a call after current_device_ has been cleared fails
the precondition check in the reachable idle state mReg. -/
theorem disconnect_idempotent_async_witness :
    Disconnect mReg (some argDev) = some (mReg, false, []) :=
  (disconnect_idempotent_async mReg (some argDev) none).2.1 (by decide)

/-- Claim C9: the guard of Disconnect checks only p2p_device_ and
current_device_ (with both null it returns false even for a null argument);
past the guard it dereferences the argument unconditionally, and on a
registry hit it dereferences current_group_device_, so in the reachable
state mAssoc, whose current device is still in kAssociation and whose group
handle is still null, a well-formed Disconnect call crashes, as does a null
argument. -/
theorem disconnect_guard_unsafe :
    Disconnect initManager none = some (initManager, false, []) ∧
    Reachable mAssoc ∧
    mAssoc.p2pDevice ≠ none ∧
    mAssoc.currentDevice = some devAssoc ∧
    devAssoc.state = NetworkDeviceState.kAssociation ∧
    mAssoc.currentGroupDevice = none ∧
    Disconnect mAssoc none = none ∧
    Disconnect mAssoc (some argDev) = none :=
  ⟨by decide, reachable_mAssoc, by decide, by decide, by decide, by decide,
    by decide, by decide⟩

/-! ### The inductive session invariant

Inv strengthens the amended C1 and C4 invariants with the bookkeeping facts
that make them inductive: registry identities are below nextId and pairwise
determine the value, registry aliases of the current device agree with it,
and every non-current device is parked in kDisconnected or kFailure. -/

/-- A device no connection attempt is working on: parked in kDisconnected or
kFailure. -/
def deviceClean (d : NetworkDevice) : Prop :=
  d.state = NetworkDeviceState.kDisconnected ∨
    d.state = NetworkDeviceState.kFailure

structure Inv (m : NetworkManager) : Prop where
  fresh : ∀ pd ∈ m.devices, pd.2.devId < m.nextId
  distinct : ∀ pd ∈ m.devices, ∀ qd ∈ m.devices,
    pd.2.devId = qd.2.devId → pd.2 = qd.2
  curFresh : ∀ c, m.currentDevice = some c → c.devId < m.nextId
  handles : ∀ c, m.currentDevice = some c →
    (c.state = NetworkDeviceState.kConfiguration ∨
      c.state = NetworkDeviceState.kConnected) →
    m.currentGroupDevice ≠ none ∧ m.currentGroupIface ≠ none
  timerInv : ∀ c, m.currentDevice = some c →
    c.state = NetworkDeviceState.kAssociation → m.connectTimeout = true
  aliasReg : ∀ c, m.currentDevice = some c →
    ∀ pd ∈ m.devices, pd.2.devId = c.devId → pd.2 = c
  cleanOther : ∀ c, m.currentDevice = some c →
    ∀ pd ∈ m.devices, pd.2.devId ≠ c.devId → deviceClean pd.2
  cleanIdle : m.currentDevice = none → ∀ pd ∈ m.devices, deviceClean pd.2

theorem inv_init : Inv initManager := by
  constructor <;> simp [initManager]

theorem aliasUpd_devId (d : NetworkDevice) (pd : String × NetworkDevice) :
    (aliasUpd d pd).2.devId = pd.2.devId := by
  unfold aliasUpd
  by_cases h : pd.2.devId = d.devId <;> simp [h]

/-- A state that agrees with m on every field Inv mentions keeps Inv. -/
theorem inv_of_fields {m m' : NetworkManager} (hInv : Inv m)
    (hdev : m'.devices = m.devices)
    (hcur : m'.currentDevice = m.currentDevice)
    (hnext : m'.nextId = m.nextId)
    (hgd : m'.currentGroupDevice = m.currentGroupDevice)
    (hgi : m'.currentGroupIface = m.currentGroupIface)
    (hct : m'.connectTimeout = m.connectTimeout) : Inv m' := by
  refine ⟨?_, ?_, ?_, ?_, ?_, ?_, ?_, ?_⟩ <;>
    simp only [hdev, hcur, hnext, hgd, hgi, hct] <;>
    first
      | exact hInv.fresh
      | exact hInv.distinct
      | exact hInv.curFresh
      | exact hInv.handles
      | exact hInv.timerInv
      | exact hInv.aliasReg
      | exact hInv.cleanOther
      | exact hInv.cleanIdle

theorem fresh_map_aliasUpd {l : List (String × NetworkDevice)} {n : Nat}
    (hf : ∀ pd ∈ l, pd.2.devId < n) (d : NetworkDevice) :
    ∀ pd ∈ l.map (aliasUpd d), pd.2.devId < n := by
  intro pd hmem
  obtain ⟨qd, hq, rfl⟩ := List.mem_map.mp hmem
  rw [aliasUpd_devId]
  exact hf qd hq

theorem distinct_map_aliasUpd {l : List (String × NetworkDevice)}
    (hd : ∀ pd ∈ l, ∀ qd ∈ l, pd.2.devId = qd.2.devId → pd.2 = qd.2)
    (d : NetworkDevice) :
    ∀ pd ∈ l.map (aliasUpd d), ∀ qd ∈ l.map (aliasUpd d),
      pd.2.devId = qd.2.devId → pd.2 = qd.2 := by
  intro pd hp qd hq hid
  obtain ⟨pd0, hp0, rfl⟩ := List.mem_map.mp hp
  obtain ⟨qd0, hq0, rfl⟩ := List.mem_map.mp hq
  rw [aliasUpd_devId, aliasUpd_devId] at hid
  have hval := hd pd0 hp0 qd0 hq0 hid
  unfold aliasUpd
  by_cases h1 : pd0.2.devId = d.devId
  · have h2 : qd0.2.devId = d.devId := hid ▸ h1
    simp [h1, h2]
  · have h2 : ¬ qd0.2.devId = d.devId := fun h => h1 (hid ▸ h)
    simp [h1, h2, hval]

/-- Teardown shape: the current device is written back in a clean state and
current_device_ is cleared; nothing else Inv constrains in the idle case. -/
theorem inv_teardown {m m' : NetworkManager} (hInv : Inv m)
    (c : NetworkDevice) (hc : m.currentDevice = some c)
    (st : NetworkDeviceState)
    (hst : st = NetworkDeviceState.kDisconnected ∨
      st = NetworkDeviceState.kFailure)
    (hdev : m'.devices = m.devices.map (aliasUpd { c with state := st }))
    (hcur : m'.currentDevice = none)
    (hnext : m'.nextId = m.nextId) : Inv m' := by
  have hclean : deviceClean { c with state := st } := by
    cases hst with
    | inl h => exact Or.inl (by simp [h])
    | inr h => exact Or.inr (by simp [h])
  refine ⟨?_, ?_, ?_, ?_, ?_, ?_, ?_, ?_⟩
  · rw [hdev, hnext]
    exact fresh_map_aliasUpd hInv.fresh _
  · rw [hdev]
    exact distinct_map_aliasUpd hInv.distinct _
  · intro c0 h
    rw [hcur] at h
    exact absurd h (by simp)
  · intro c0 h
    rw [hcur] at h
    exact absurd h (by simp)
  · intro c0 h
    rw [hcur] at h
    exact absurd h (by simp)
  · intro c0 h
    rw [hcur] at h
    exact absurd h (by simp)
  · intro c0 h
    rw [hcur] at h
    exact absurd h (by simp)
  · intro _ pd hmem
    rw [hdev] at hmem
    obtain ⟨qd, hq, rfl⟩ := List.mem_map.mp hmem
    unfold aliasUpd
    by_cases h1 : qd.2.devId = ({ c with state := st } : NetworkDevice).devId
    · simpa [h1] using hclean
    · simp only [h1, if_neg, ite_false]
      simp only [show ({ c with state := st } : NetworkDevice).devId = c.devId
        from rfl] at h1
      exact hInv.cleanOther c hc qd hq h1

/-- Current-device mutation shape: the current device is replaced by a value
with the same identity; the caller supplies the handle and timer facts of the
new state. -/
theorem inv_update {m m' : NetworkManager} (hInv : Inv m)
    (c c' : NetworkDevice) (hc : m.currentDevice = some c)
    (hid : c'.devId = c.devId)
    (hdev : m'.devices = m.devices.map (aliasUpd c'))
    (hcur : m'.currentDevice = some c')
    (hnext : m'.nextId = m.nextId)
    (hhandles : (c'.state = NetworkDeviceState.kConfiguration ∨
        c'.state = NetworkDeviceState.kConnected) →
      m'.currentGroupDevice ≠ none ∧ m'.currentGroupIface ≠ none)
    (htimer : c'.state = NetworkDeviceState.kAssociation →
      m'.connectTimeout = true) : Inv m' := by
  refine ⟨?_, ?_, ?_, ?_, ?_, ?_, ?_, ?_⟩
  · rw [hdev, hnext]
    exact fresh_map_aliasUpd hInv.fresh _
  · rw [hdev]
    exact distinct_map_aliasUpd hInv.distinct _
  · intro c0 h
    rw [hcur] at h
    injection h with h
    subst h
    rw [hnext, hid]
    exact hInv.curFresh c hc
  · intro c0 h
    rw [hcur] at h
    injection h with h
    subst h
    exact hhandles
  · intro c0 h
    rw [hcur] at h
    injection h with h
    subst h
    exact htimer
  · intro c0 h pd hmem hidp
    rw [hcur] at h
    injection h with h
    subst h
    rw [hdev] at hmem
    obtain ⟨qd, hq, rfl⟩ := List.mem_map.mp hmem
    unfold aliasUpd
    rw [aliasUpd_devId] at hidp
    simp [hidp]
  · intro c0 h pd hmem hidp
    rw [hcur] at h
    injection h with h
    subst h
    rw [hdev] at hmem
    obtain ⟨qd, hq, rfl⟩ := List.mem_map.mp hmem
    rw [aliasUpd_devId] at hidp
    unfold aliasUpd
    simp only [hidp, if_neg, ite_false]
    rw [hid] at hidp
    exact hInv.cleanOther c hc qd hq hidp
  · intro h
    rw [hcur] at h
    exact absurd h (by simp)

/-- Binding shape: current_device_ is set to a registry device while idle;
the registry and every other field Inv constrains are untouched. -/
theorem inv_bind {m m' : NetworkManager} (hInv : Inv m) (d0 : NetworkDevice)
    (hc : m.currentDevice = none) (hd0 : ∃ p, (p, d0) ∈ m.devices)
    (hdev : m'.devices = m.devices)
    (hcur : m'.currentDevice = some d0)
    (hnext : m'.nextId = m.nextId) : Inv m' := by
  obtain ⟨p, hp⟩ := hd0
  have hclean : deviceClean d0 := hInv.cleanIdle hc (p, d0) hp
  refine ⟨?_, ?_, ?_, ?_, ?_, ?_, ?_, ?_⟩
  · rw [hdev, hnext]
    exact hInv.fresh
  · rw [hdev]
    exact hInv.distinct
  · intro c0 h
    rw [hcur] at h
    injection h with h
    subst h
    rw [hnext]
    exact hInv.fresh (p, d0) hp
  · intro c0 h hcfg
    rw [hcur] at h
    injection h with h
    subst h
    cases hclean with
    | inl h1 => cases hcfg with
      | inl h2 => rw [h1] at h2; exact absurd h2 (by decide)
      | inr h2 => rw [h1] at h2; exact absurd h2 (by decide)
    | inr h1 => cases hcfg with
      | inl h2 => rw [h1] at h2; exact absurd h2 (by decide)
      | inr h2 => rw [h1] at h2; exact absurd h2 (by decide)
  · intro c0 h ha
    rw [hcur] at h
    injection h with h
    subst h
    cases hclean with
    | inl h1 => rw [h1] at ha; exact absurd ha (by decide)
    | inr h1 => rw [h1] at ha; exact absurd ha (by decide)
  · intro c0 h pd hmem hidp
    rw [hcur] at h
    injection h with h
    subst h
    rw [hdev] at hmem
    exact hInv.distinct pd hmem (p, d0) hp hidp
  · intro c0 h pd hmem hidp
    rw [hcur] at h
    injection h with h
    subst h
    rw [hdev] at hmem
    exact hInv.cleanIdle hc pd hmem
  · intro h
    rw [hcur] at h
    exact absurd h (by simp)

theorem mem_insertDevice {l : List (String × NetworkDevice)}
    {p q : String × NetworkDevice} :
    q ∈ insertDevice l p ↔ q ∈ l ∨ q = p := by
  induction l with
  | nil => simp [insertDevice]
  | cons r t ih =>
    unfold insertDevice
    by_cases h : p.1 < r.1
    · simp only [if_pos h, List.mem_cons]
      tauto
    · simp only [if_neg h, List.mem_cons, ih]
      tauto

/-- Discovery shape: a fresh clean device is inserted and nextId advances. -/
theorem inv_insert {m m' : NetworkManager} (hInv : Inv m) {p : String}
    {d : NetworkDevice} (hdid : d.devId = m.nextId) (hclean : deviceClean d)
    (hdev : m'.devices = insertDevice m.devices (p, d))
    (hcur : m'.currentDevice = m.currentDevice)
    (hnext : m'.nextId = m.nextId + 1)
    (hgd : m'.currentGroupDevice = m.currentGroupDevice)
    (hgi : m'.currentGroupIface = m.currentGroupIface)
    (hct : m'.connectTimeout = m.connectTimeout) : Inv m' := by
  refine ⟨?_, ?_, ?_, ?_, ?_, ?_, ?_, ?_⟩
  · intro pd hmem
    rw [hdev] at hmem
    rw [hnext]
    cases mem_insertDevice.mp hmem with
    | inl h => exact Nat.lt_succ_of_lt (hInv.fresh pd h)
    | inr h => subst h; rw [hdid]; exact Nat.lt_succ_self _
  · intro pd hp qd hq hid
    rw [hdev] at hp hq
    cases mem_insertDevice.mp hp with
    | inl h1 =>
      cases mem_insertDevice.mp hq with
      | inl h2 => exact hInv.distinct pd h1 qd h2 hid
      | inr h2 =>
        subst h2
        rw [hdid] at hid
        exact absurd hid (Nat.ne_of_lt (hInv.fresh pd h1))
    | inr h1 =>
      subst h1
      cases mem_insertDevice.mp hq with
      | inl h2 =>
        rw [hdid] at hid
        exact absurd hid.symm (Nat.ne_of_lt (hInv.fresh qd h2))
      | inr h2 => subst h2; rfl
  · intro c h
    rw [hcur] at h
    rw [hnext]
    exact Nat.lt_succ_of_lt (hInv.curFresh c h)
  · intro c h
    rw [hcur] at h
    rw [hgd, hgi]
    exact hInv.handles c h
  · intro c h
    rw [hcur] at h
    rw [hct]
    exact hInv.timerInv c h
  · intro c h pd hmem hidp
    rw [hcur] at h
    rw [hdev] at hmem
    cases mem_insertDevice.mp hmem with
    | inl h1 => exact hInv.aliasReg c h pd h1 hidp
    | inr h1 =>
      subst h1
      rw [hdid] at hidp
      exact absurd hidp.symm (Nat.ne_of_lt (hInv.curFresh c h))
  · intro c h pd hmem hidp
    rw [hcur] at h
    rw [hdev] at hmem
    cases mem_insertDevice.mp hmem with
    | inl h1 => exact hInv.cleanOther c h pd h1 hidp
    | inr h1 => subst h1; exact hclean
  · intro h pd hmem
    rw [hcur] at h
    rw [hdev] at hmem
    cases mem_insertDevice.mp hmem with
    | inl h1 => exact hInv.cleanIdle h pd h1
    | inr h1 => subst h1; exact hclean

/-- Removal shape: the registry shrinks and nothing else Inv constrains
changes. -/
theorem inv_filter {m m' : NetworkManager} (hInv : Inv m)
    {pred : String × NetworkDevice → Bool}
    (hdev : m'.devices = m.devices.filter pred)
    (hcur : m'.currentDevice = m.currentDevice)
    (hnext : m'.nextId = m.nextId)
    (hgd : m'.currentGroupDevice = m.currentGroupDevice)
    (hgi : m'.currentGroupIface = m.currentGroupIface)
    (hct : m'.connectTimeout = m.connectTimeout) : Inv m' := by
  refine ⟨?_, ?_, ?_, ?_, ?_, ?_, ?_, ?_⟩
  · intro pd hmem
    rw [hdev] at hmem
    rw [hnext]
    exact hInv.fresh pd (List.mem_of_mem_filter hmem)
  · intro pd hp qd hq hid
    rw [hdev] at hp hq
    exact hInv.distinct pd (List.mem_of_mem_filter hp) qd
      (List.mem_of_mem_filter hq) hid
  · intro c h
    rw [hcur] at h
    rw [hnext]
    exact hInv.curFresh c h
  · intro c h
    rw [hcur] at h
    rw [hgd, hgi]
    exact hInv.handles c h
  · intro c h
    rw [hcur] at h
    rw [hct]
    exact hInv.timerInv c h
  · intro c h pd hmem hidp
    rw [hcur] at h
    rw [hdev] at hmem
    exact hInv.aliasReg c h pd (List.mem_of_mem_filter hmem) hidp
  · intro c h pd hmem hidp
    rw [hcur] at h
    rw [hdev] at hmem
    exact hInv.cleanOther c h pd (List.mem_of_mem_filter hmem) hidp
  · intro h pd hmem
    rw [hcur] at h
    rw [hdev] at hmem
    exact hInv.cleanIdle h pd (List.mem_of_mem_filter hmem)

/-! ### Every event preserves Inv -/

/-- Disconnect never mutates the manager state (helper shared by the
invariant proof). -/
theorem disconnect_keeps_state {m m1 : NetworkManager}
    {d : Option NetworkDevice} {r : Bool} {effs : List Eff}
    (h : Disconnect m d = some (m1, r, effs)) : m1 = m := by
  unfold Disconnect at h
  split at h
  · simp at h
    exact h.1.symm
  · cases d with
    | none => exact absurd h (by simp)
    | some dev =>
      simp only at h
      cases hf : FindDevice m dev.address with
      | none =>
        rw [hf] at h
        simp at h
        exact h.1.symm
      | some d1 =>
        rw [hf] at h
        cases hg : m.currentGroupDevice with
        | none => rw [hg] at h; exact absurd h (by simp)
        | some gp =>
          rw [hg] at h
          simp at h
          exact h.1.symm

/-- A state that only rearms or disarms the timer while the current device
is not in kAssociation keeps Inv. -/
theorem inv_timer_off {m m' : NetworkManager} (hInv : Inv m)
    (c : NetworkDevice) (hc : m.currentDevice = some c)
    (hna : c.state ≠ NetworkDeviceState.kAssociation)
    (hdev : m'.devices = m.devices)
    (hcur : m'.currentDevice = some c)
    (hnext : m'.nextId = m.nextId)
    (hgd : m'.currentGroupDevice = m.currentGroupDevice)
    (hgi : m'.currentGroupIface = m.currentGroupIface) : Inv m' := by
  refine ⟨?_, ?_, ?_, ?_, ?_, ?_, ?_, ?_⟩
  · rw [hdev, hnext]
    exact hInv.fresh
  · rw [hdev]
    exact hInv.distinct
  · intro c0 h0
    rw [hcur] at h0
    injection h0 with h0
    subst h0
    rw [hnext]
    exact hInv.curFresh c hc
  · intro c0 h0
    rw [hcur] at h0
    injection h0 with h0
    subst h0
    rw [hgd, hgi]
    exact hInv.handles c hc
  · intro c0 h0 ha
    rw [hcur] at h0
    injection h0 with h0
    subst h0
    exact absurd ha hna
  · intro c0 h0 pd hmem hidp
    rw [hcur] at h0
    injection h0 with h0
    subst h0
    rw [hdev] at hmem
    exact hInv.aliasReg c hc pd hmem hidp
  · intro c0 h0 pd hmem hidp
    rw [hcur] at h0
    injection h0 with h0
    subst h0
    rw [hdev] at hmem
    exact hInv.cleanOther c hc pd hmem hidp
  · intro h0
    rw [hcur] at h0
    exact absurd h0 (by simp)

theorem inv_Connect {m : NetworkManager} (hInv : Inv m)
    (d : Option NetworkDevice) (acc : Bool) : Inv (Connect m d acc).1 := by
  unfold Connect
  by_cases hg : m.p2pDevice = none ∨ m.currentDevice ≠ none
  · simp only [if_pos hg]
    exact hInv
  · simp only [if_neg hg]
    push_neg at hg
    obtain ⟨hp, hc⟩ := hg
    cases d with
    | none => exact hInv
    | some dev =>
      simp only
      cases hf : FindDevice m dev.address with
      | none =>
        simp only [hf]
        exact hInv
      | some d0 =>
        simp only [hf]
        have h1 : Inv ({ m with currentDevice := some d0 } : NetworkManager) :=
          inv_bind hInv d0 hc (findDevice_mem hf) rfl rfl rfl
        by_cases ha : acc = false
        · simp only [if_pos ha]
          exact h1
        · simp only [if_neg ha]
          refine inv_update h1 d0
            { d0 with state := NetworkDeviceState.kAssociation }
            rfl rfl (by simp [updateDevice]) (by simp [updateDevice]) rfl
            ?_ ?_
          · intro hcfg
            rcases hcfg with h2 | h2 <;> simp at h2
          · intro _
            rfl

theorem inv_ReleaseInterface {m m1 : NetworkManager} {effs : List Eff}
    (hInv : Inv m) (h : ReleaseInterface m = some (m1, effs)) : Inv m1 := by
  unfold ReleaseInterface advanceDeviceState at h
  cases hc : m.currentDevice with
  | none =>
    rw [hc] at h
    simp at h
    obtain ⟨h1, _⟩ := h
    subst h1
    exact inv_of_fields hInv rfl (by simp [hc]) rfl rfl rfl rfl
  | some c =>
    rw [hc] at h
    cases hm : m.mgmtInterface with
    | none =>
      rw [hm] at h
      simp at h
    | some ifn =>
      rw [hm] at h
      simp at h
      obtain ⟨h1, _⟩ := h
      subst h1
      exact inv_teardown hInv c hc NetworkDeviceState.kDisconnected
        (Or.inl rfl) (by simp [updateDevice]) rfl rfl

theorem inv_HandleConnectFailed {m m1 : NetworkManager} {effs : List Eff}
    (hInv : Inv m) (h : HandleConnectFailed m = some (m1, effs)) : Inv m1 := by
  unfold HandleConnectFailed advanceDeviceState at h
  cases hc : m.currentDevice with
  | none =>
    rw [hc] at h
    simp at h
  | some c =>
    rw [hc] at h
    simp at h
    obtain ⟨h1, _⟩ := h
    subst h1
    exact inv_teardown hInv c hc NetworkDeviceState.kFailure
      (Or.inr rfl) (by simp [updateDevice]) rfl rfl

theorem inv_OnGroupStarted {m m1 : NetworkManager} {effs : List Eff}
    {g i r : String} (hInv : Inv m)
    (h : OnGroupStarted m g i r = some (m1, effs)) : Inv m1 := by
  unfold OnGroupStarted advanceDeviceState at h
  cases hc : m.currentDevice with
  | none =>
    rw [hc] at h
    simp at h
    obtain ⟨h1, _⟩ := h
    subst h1
    exact hInv
  | some c =>
    rw [hc] at h
    simp [updateDevice] at h
    obtain ⟨h1, _⟩ := h
    subst h1
    refine inv_update hInv c
      { c with state := NetworkDeviceState.kConfiguration, role := r }
      hc rfl ?_ (by simp) rfl (by simp) ?_
    · apply List.map_congr_left
      intro pd _
      simp only [Function.comp_apply]
      unfold aliasUpd
      by_cases hb : pd.2.devId = c.devId <;> simp [hb]
    · intro h2
      simp at h2

theorem inv_OnGroupFinished {m m1 : NetworkManager} {effs : List Eff}
    {g i : String} (hInv : Inv m)
    (h : OnGroupFinished m g i = some (m1, effs)) : Inv m1 := by
  unfold OnGroupFinished advanceDeviceState at h
  cases hc : m.currentDevice with
  | none =>
    rw [hc] at h
    simp at h
    obtain ⟨h1, _⟩ := h
    subst h1
    exact hInv
  | some c =>
    rw [hc] at h
    cases hm : m.mgmtInterface with
    | none =>
      simp only [hm] at h
      simp at h
    | some ifn =>
      simp only [hm] at h
      simp at h
      obtain ⟨h1, _⟩ := h
      subst h1
      exact inv_teardown hInv c hc NetworkDeviceState.kDisconnected
        (Or.inl rfl) (by simp [updateDevice]) rfl rfl

theorem inv_OnDhcpAddressAssigned {m : NetworkManager} (hInv : Inv m)
    (l r : String) : Inv (OnDhcpAddressAssigned m l r).1 := by
  cases hc : m.currentDevice with
  | none =>
    unfold OnDhcpAddressAssigned
    rw [hc]
    exact hInv
  | some c =>
    by_cases hs : c.state = NetworkDeviceState.kConfiguration
    · have he : OnDhcpAddressAssigned m l r =
          ({ m with connectTimeout := false, sessionAvailable := false,
                    currentDevice := some { c with ipAddress := some r, state := NetworkDeviceState.kConnected },
                    devices := m.devices.map
                      (aliasUpd { c with ipAddress := some r, state := NetworkDeviceState.kConnected }) },
           (if m.manager then [Eff.setWFDIEs] else []) ++
             (if m.hasDelegate then
               [Eff.notifyDeviceStateChanged c.devId NetworkDeviceState.kConnected]
             else [])) := by
        simp only [OnDhcpAddressAssigned, hc, hs, if_pos, advanceDeviceState,
          updateDevice, configureFromCapabilities]
        simp
        intro a b hmem
        unfold aliasUpd
        by_cases hb : b.devId = c.devId <;> simp [hb]
      rw [he]
      refine inv_update hInv c
        { c with ipAddress := some r, state := NetworkDeviceState.kConnected }
        hc rfl rfl rfl rfl ?_ ?_
      · intro _
        exact hInv.handles c hc (Or.inl hs)
      · intro h2
        simp at h2
    · unfold OnDhcpAddressAssigned
      rw [hc]
      simp only [hs, reduceIte]
      exact hInv

theorem inv_OnDhcpTerminated {m m1 : NetworkManager} {effs : List Eff}
    (hInv : Inv m) (h : OnDhcpTerminated m = some (m1, effs)) : Inv m1 := by
  unfold OnDhcpTerminated at h
  cases hc : m.currentDevice with
  | none =>
    rw [hc] at h
    simp at h
    obtain ⟨h1, _⟩ := h
    subst h1
    exact hInv
  | some c =>
    rw [hc] at h
    by_cases hs : c.state = NetworkDeviceState.kConfiguration
    · simp only [hs, reduceIte] at h
      cases hd : Disconnect m (some c) with
      | none =>
        rw [hd] at h
        simp at h
      | some t =>
        obtain ⟨md, rd, effsd⟩ := t
        have hmd : md = m := disconnect_keeps_state hd
        subst hmd
        rw [hd] at h
        simp only at h
        unfold advanceDeviceState at h
        rw [hc] at h
        simp at h
        obtain ⟨h1, _⟩ := h
        subst h1
        refine inv_update hInv c
          { c with state := NetworkDeviceState.kFailure }
          hc rfl (by simp [updateDevice]) (by simp [updateDevice]) rfl
          ?_ ?_
        · intro h2
          rcases h2 with h2 | h2 <;> simp at h2
        · intro h2
          simp at h2
    · simp only [hs, reduceIte] at h
      simp at h
      obtain ⟨h1, _⟩ := h
      subst h1
      exact hInv

theorem inv_connectTimeoutFired {m m1 : NetworkManager} {effs : List Eff}
    (hInv : Inv m) (h : connectTimeoutFired m = some (m1, effs)) :
    Inv m1 := by
  unfold connectTimeoutFired at h
  cases hc : m.currentDevice with
  | none =>
    rw [hc] at h
    simp at h
  | some c =>
    rw [hc] at h
    by_cases hs : c.state = NetworkDeviceState.kConnected ∨
        c.state = NetworkDeviceState.kConfiguration
    · simp only [if_pos hs] at h
      simp at h
      obtain ⟨h1, _⟩ := h
      subst h1
      refine inv_timer_off hInv c hc ?_ rfl rfl rfl rfl rfl
      intro ha
      rcases hs with h2 | h2 <;> rw [h2] at ha <;> exact absurd ha (by decide)
    · simp only [if_neg hs] at h
      cases hp : m.p2pDevice with
      | none =>
        rw [hp] at h
        simp at h
      | some p =>
        rw [hp] at h
        simp only at h
        unfold advanceDeviceState at h
        simp only [show ({ m with connectTimeout := false } :
            NetworkManager).currentDevice = m.currentDevice from rfl, hc] at h
        simp at h
        obtain ⟨h1, _⟩ := h
        subst h1
        exact inv_teardown hInv c hc NetworkDeviceState.kFailure
          (Or.inr rfl) (by simp [updateDevice]) rfl rfl

theorem inv_OnDeviceFound {m : NetworkManager} (hInv : Inv m)
    (p a : String) : Inv (OnDeviceFound m p a) := by
  unfold OnDeviceFound
  cases hf : m.devices.find? (fun pd => pd.1 == p) with
  | some q => exact hInv
  | none =>
    exact inv_insert hInv rfl (Or.inl rfl) rfl rfl rfl rfl rfl rfl

theorem inv_OnDeviceLost {m : NetworkManager} (hInv : Inv m) (p : String) :
    Inv (OnDeviceLost m p).1 := by
  unfold OnDeviceLost
  cases hf : m.devices.find? (fun pd => pd.1 == p) with
  | none => exact hInv
  | some q =>
    exact inv_filter hInv rfl rfl rfl rfl rfl rfl

theorem inv_OnGroupInterfaceReady {m m1 : NetworkManager} {effs : List Eff}
    (hInv : Inv m) (h : OnGroupInterfaceReady m = some (m1, effs)) :
    Inv m1 := by
  unfold OnGroupInterfaceReady at h
  cases hc : m.currentDevice with
  | none =>
    rw [hc] at h
    simp at h
    obtain ⟨h1, _⟩ := h
    subst h1
    exact hInv
  | some c =>
    rw [hc] at h
    by_cases hs : c.state = NetworkDeviceState.kConfiguration
    · simp only [hs, reduceIte] at h
      cases hgi : m.currentGroupIface with
      | none =>
        rw [hgi] at h
        simp at h
      | some gi =>
        rw [hgi] at h
        cases hm : m.mgmtInterface with
        | none =>
          rw [hm] at h
          simp at h
        | some ifn =>
          rw [hm] at h
          by_cases hr : c.role = "GO"
          · simp only [hr, reduceIte] at h
            simp at h
            obtain ⟨h1, _⟩ := h
            subst h1
            exact inv_of_fields hInv rfl (by simp [hc]) rfl rfl
              (by simp [hgi]) rfl
          · simp only [hr, reduceIte] at h
            simp at h
            obtain ⟨h1, _⟩ := h
            subst h1
            exact inv_of_fields hInv rfl (by simp [hc]) rfl rfl
              (by simp [hgi]) rfl
    · simp only [hs, reduceIte] at h
      simp at h
      obtain ⟨h1, _⟩ := h
      subst h1
      exact hInv

/-- Every dispatched event preserves Inv. -/
theorem inv_step {m m' : NetworkManager} {e : Event} (hInv : Inv m)
    (h : step m e = some m') : Inv m' := by
  cases e with
  | serviceFound =>
    simp only [step, Initialize, Option.some.injEq] at h
    subst h
    exact inv_of_fields hInv rfl rfl rfl rfl rfl rfl
  | serviceLost =>
    simp only [step, ReleaseInternal] at h
    cases hr : ReleaseInterface m with
    | none => rw [hr] at h; simp at h
    | some t =>
      obtain ⟨m1, effs⟩ := t
      rw [hr] at h
      simp only [Option.map_some', Option.some.injEq] at h
      subst h
      exact inv_of_fields (inv_ReleaseInterface hInv hr) rfl rfl rfl rfl rfl rfl
  | setupInterface p =>
    simp only [step, SetupInterface, Option.some.injEq] at h
    by_cases hp : m.p2pDevice ≠ none
    · rw [if_pos hp] at h
      subst h
      exact hInv
    · rw [if_neg hp] at h
      subst h
      exact inv_of_fields hInv rfl rfl rfl rfl rfl rfl
  | interfaceRemoved p =>
    simp only [step, OnManagerInterfaceRemoved] at h
    cases hp : m.p2pDevice with
    | none => rw [hp] at h; simp at h
    | some pp =>
      rw [hp] at h
      by_cases he : pp = p
      · simp only [he, reduceIte] at h
        cases hr : ReleaseInterface m with
        | none => rw [hr] at h; simp at h
        | some t =>
          obtain ⟨m1, effs⟩ := t
          rw [hr] at h
          simp only [Option.map_some', Option.some.injEq] at h
          subst h
          exact inv_ReleaseInterface hInv hr
      · simp only [he, reduceIte] at h
        simp only [Option.map_some', Option.some.injEq] at h
        subst h
        exact hInv
  | setDelegate b =>
    simp only [step, Option.some.injEq] at h
    subst h
    exact inv_of_fields hInv rfl rfl rfl rfl rfl rfl
  | scan =>
    simp only [step, Scan] at h
    by_cases hp : m.p2pDevice = none
    · rw [if_pos hp] at h
      simp at h
      subst h
      exact hInv
    · rw [if_neg hp] at h
      simp at h
      subst h
      exact hInv
  | connect d acc =>
    simp only [step, Option.some.injEq] at h
    subst h
    exact inv_Connect hInv d acc
  | disconnect d =>
    simp only [step] at h
    cases hd : Disconnect m d with
    | none => rw [hd] at h; simp at h
    | some t =>
      obtain ⟨m1, r, effs⟩ := t
      rw [hd] at h
      simp only [Option.map_some', Option.some.injEq] at h
      subst h
      rw [disconnect_keeps_state hd]
      exact hInv
  | deviceFound p a =>
    simp only [step, Option.some.injEq] at h
    subst h
    exact inv_OnDeviceFound hInv p a
  | deviceLost p =>
    simp only [step, Option.some.injEq] at h
    subst h
    exact inv_OnDeviceLost hInv p
  | peerConnectFailed =>
    simp only [step, OnPeerConnectFailed] at h
    cases hc : m.currentDevice with
    | none =>
      rw [hc] at h
      simp at h
      subst h
      exact hInv
    | some c =>
      rw [hc] at h
      cases hh : HandleConnectFailed m with
      | none => rw [hh] at h; simp at h
      | some t =>
        obtain ⟨m1, effs⟩ := t
        rw [hh] at h
        simp only [Option.map_some', Option.some.injEq] at h
        subst h
        exact inv_HandleConnectFailed hInv hh
  | negotiationFailure p =>
    simp only [step, OnGroupOwnerNegotiationFailure] at h
    cases hc : m.currentDevice with
    | none =>
      rw [hc] at h
      simp at h
      subst h
      exact hInv
    | some c =>
      rw [hc] at h
      cases hh : HandleConnectFailed m with
      | none => rw [hh] at h; simp at h
      | some t =>
        obtain ⟨m1, effs⟩ := t
        rw [hh] at h
        simp only [Option.map_some', Option.some.injEq] at h
        subst h
        exact inv_HandleConnectFailed hInv hh
  | negotiationSuccess p =>
    simp only [step, OnGroupOwnerNegotiationSuccess, Option.some.injEq] at h
    subst h
    exact hInv
  | groupStarted g i r =>
    simp only [step] at h
    cases hg : OnGroupStarted m g i r with
    | none => rw [hg] at h; simp at h
    | some t =>
      obtain ⟨m1, effs⟩ := t
      rw [hg] at h
      simp only [Option.map_some', Option.some.injEq] at h
      subst h
      exact inv_OnGroupStarted hInv hg
  | groupFinished g i =>
    simp only [step] at h
    cases hg : OnGroupFinished m g i with
    | none => rw [hg] at h; simp at h
    | some t =>
      obtain ⟨m1, effs⟩ := t
      rw [hg] at h
      simp only [Option.map_some', Option.some.injEq] at h
      subst h
      exact inv_OnGroupFinished hInv hg
  | groupInterfaceReady =>
    simp only [step] at h
    cases hg : OnGroupInterfaceReady m with
    | none => rw [hg] at h; simp at h
    | some t =>
      obtain ⟨m1, effs⟩ := t
      rw [hg] at h
      simp only [Option.map_some', Option.some.injEq] at h
      subst h
      exact inv_OnGroupInterfaceReady hInv hg
  | dhcpAddressAssigned l r =>
    simp only [step, Option.some.injEq] at h
    subst h
    exact inv_OnDhcpAddressAssigned hInv l r
  | dhcpTerminated =>
    simp only [step] at h
    cases hg : OnDhcpTerminated m with
    | none => rw [hg] at h; simp at h
    | some t =>
      obtain ⟨m1, effs⟩ := t
      rw [hg] at h
      simp only [Option.map_some', Option.some.injEq] at h
      subst h
      exact inv_OnDhcpTerminated hInv hg
  | timeoutFired =>
    simp only [step] at h
    by_cases ht : m.connectTimeout
    · rw [if_pos ht] at h
      cases hg : connectTimeoutFired m with
      | none => rw [hg] at h; simp at h
      | some t =>
        obtain ⟨m1, effs⟩ := t
        rw [hg] at h
        simp only [Option.map_some', Option.some.injEq] at h
        subst h
        exact inv_connectTimeoutFired hInv hg
    · rw [if_neg ht] at h
      simp at h
  | setCapabilities caps =>
    simp only [step, SetCapabilities] at h
    by_cases he : caps = m.capabilities
    · rw [if_pos he] at h
      simp at h
      subst h
      exact hInv
    · rw [if_neg he] at h
      simp at h
      subst h
      exact inv_of_fields hInv rfl rfl rfl rfl rfl rfl

/-- Every reachable state satisfies Inv. -/
theorem inv_reachable {m : NetworkManager} (h : Reachable m) : Inv m := by
  induction h with
  | init => exact inv_init
  | step _ hs ih => exact inv_step ih hs

/-- Claim C1 as amended: in every reachable state, when the current device
exists and is in kConfiguration or kConnected, both group handles are
non-null. (The converse direction of the original biconditional fails, see
the counterexample: after a DHCP-terminated event the handles stay non-null
while the device sits in kFailure until group-finished arrives.) -/
theorem group_handles_present (m : NetworkManager) (c : NetworkDevice)
    (hr : Reachable m) (hc : m.currentDevice = some c)
    (hs : c.state = NetworkDeviceState.kConfiguration ∨
      c.state = NetworkDeviceState.kConnected) :
    m.currentGroupDevice ≠ none ∧ m.currentGroupIface ≠ none :=
  (inv_reachable hr).handles c hc hs

/-- Claim C1, witness: the amended invariant evaluated in the reachable
Configuration state mCfg. -/
theorem group_handles_present_witness :
    mCfg.currentGroupDevice ≠ none ∧ mCfg.currentGroupIface ≠ none :=
  group_handles_present mCfg devCfg reachable_mCfg (by decide)
    (Or.inl (by decide))

/-- Claim C4 as amended: in every reachable state, when the current device
exists and is in kAssociation, the connect-timeout timer is armed. (The
original biconditional fails in both directions, see the counterexample: a
no-op firing during kConfiguration leaves the device there with the timer
disarmed, and a DHCP-terminated event leaves the timer armed with the device
in kFailure.) -/
theorem timer_armed_in_association (m : NetworkManager) (c : NetworkDevice)
    (hr : Reachable m) (hc : m.currentDevice = some c)
    (hs : c.state = NetworkDeviceState.kAssociation) :
    m.connectTimeout = true :=
  (inv_reachable hr).timerInv c hc hs

/-- Claim C4, witness: the amended invariant evaluated in the reachable
Association state mAssoc. -/
theorem timer_armed_in_association_witness :
    mAssoc.connectTimeout = true :=
  timer_armed_in_association mAssoc devAssoc reachable_mAssoc (by decide)
    (by decide)



end Aethercast
